import Mathlib

/-!
# Verification of the Vic collage creator

A shallow embedding of `vic_collage_creator.py`, a script that resolves
NFT token ids owned by wallet addresses, downloads one image per token id
into a working directory `vics/`, and composes the downloaded images into
a single grid collage.

Network and filesystem effects are modelled explicitly:

* the outcome of each HTTP download is an oracle `Nat → DownloadOutcome`
  (HTTP 200, a non-200 status, or a transport-level exception caught by
  the broad `except` clause);
* the chain response of `tokensOfOwner` for each wallet is the input list
  of token ids (unsorted, as returned by the RPC call);
* the contents of the working directory seen by the collage composer is a
  lookup `String → Option Img` from file name to the image stored there;
* Python exceptions that escape a function are modelled with `Except`.

Sizes are natural numbers; the floating-point scale factor is modelled as
a rational number, with Python `int(...)` truncation made explicit.
-/

namespace VicCollage

attribute [local semireducible] Rat.mul

/-! ## Download outcomes (`download_vic`, source lines 92–115) -/

/-- Outcome of one HTTP GET performed by `download_vic`: HTTP 200, a
non-200 status code, or a transport-level exception raised inside the
`try` block (timeout, connection reset, ...). -/
inductive DownloadOutcome where
  | ok
  | httpError (status : Nat)
  | transportExc
deriving DecidableEq, Repr

/-- Whether `download_vic` writes `vics/{token_id}.png`: only on HTTP 200. -/
def savesFile : DownloadOutcome → Bool
  | .ok => true
  | .httpError _ => false
  | .transportExc => false

/-- How many times `download_vic` invokes its completion callback.  In the
source the `if callback: callback()` statement sits inside the `try` block
after the status dispatch, so it runs once for HTTP 200 and once for a
non-200 status, but an exception jumps to the `except` handler before the
callback line is reached. -/
def callbackInvocations : DownloadOutcome → Nat
  | .ok => 1
  | .httpError _ => 1
  | .transportExc => 0

/-- Observable effect of one `download_vic` task: whether the file was
written, and how many times the callback fired. -/
def download_vic (outcome : DownloadOutcome) : Bool × Nat :=
  (savesFile outcome, callbackInvocations outcome)

/-- Final value of the closure-captured progress counter after
`asyncio.gather` over one `download_vic` task per token id: every task's
callback increments the counter by one each time it is invoked, and all
increments happen on the single cooperative scheduler thread. -/
def batchCounter (tokenIds : List Nat) (outcome : Nat → DownloadOutcome) : Nat :=
  (tokenIds.map (fun t => (download_vic (outcome t)).2)).sum

/-! ## Progress bar (`print_progress_bar`, source lines 57–74) -/

/-- Python exceptions and `argparse` usage failures that terminate a run. -/
inductive RunError where
  | usageError
  | zeroDivisionError
deriving DecidableEq, Repr

/-- What one `print_progress_bar` call renders: the number of fill
characters `int(length * iteration // total)` and whether the trailing
newline is printed (`iteration == total`). -/
structure ProgressRender where
  filledLength : Nat
  printsFinalNewline : Bool
deriving DecidableEq, Repr

/-- Model of `print_progress_bar(iteration, total, ..., length)`.  The percent
computation `100 * (iteration / float(total))` raises `ZeroDivisionError`
when `total == 0`; otherwise the call renders the bar. -/
def print_progress_bar (iteration total length : Nat) : Except RunError ProgressRender :=
  if total = 0 then .error .zeroDivisionError
  else .ok ⟨length * iteration / total, iteration == total⟩

/-! ## Ownership resolution and batch download (`get_the_vics`, lines 117–153) -/

/-- Model of `token_ids.sort()`: Python's ascending in-place sort, modelled with
insertion sort (stable ascending sort; on `Nat` the result is the unique
ascending permutation, as for `list.sort`). -/
def pySort (l : List Nat) : List Nat := l.insertionSort (· ≤ ·)

/-- Model of `get_the_vics`: resolves the owned token ids for one wallet (the chain
response is `chainTokenIds`), sorts them ascending, prints the initial
progress bar (`iteration = 0`, `total = len(token_ids)`) and fans out one
`download_vic` task per id.  Returns the final progress-counter value and
the sorted token ids.  When the wallet owns zero tokens the initial
progress-bar call raises `ZeroDivisionError`, which nothing catches. -/
def get_the_vics (chainTokenIds : List Nat) (outcome : Nat → DownloadOutcome) :
    Except RunError (Nat × List Nat) :=
  let token_ids := pySort chainTokenIds
  match print_progress_bar 0 token_ids.length 50 with
  | .error e => .error e
  | .ok _ => .ok (batchCounter token_ids outcome, token_ids)

/-! ## Collage composition (`make_vic_collage`, source lines 155–223) -/

/-- A raster image: all the composer reads from a decoded PIL image is its
pixel width and height. -/
structure Img where
  width : Nat
  height : Nat
deriving DecidableEq, Repr

/-- Python `int(...)` applied to a real number: truncation toward zero. -/
def pyInt (q : ℚ) : ℤ := if 0 ≤ q then ⌊q⌋ else ⌈q⌉

/-- Model of `img.resize((int(img.width * collage_scale), int(img.height * collage_scale)))`:
the scaled pixel dimensions of one image. -/
def resizeDims (scale : ℚ) (img : Img) : Nat × Nat :=
  ((pyInt ((img.width : ℚ) * scale)).toNat, (pyInt ((img.height : ℚ) * scale)).toNat)

/-- The `scaled_images` list: for each file name, in input order, the
scaled image if `vics/{name}` exists on disk, else skipped (with a
warning print). -/
def scaledImages (fs : String → Option Img) (scale : ℚ) (files : List String) :
    List (Nat × Nat) :=
  files.filterMap (fun f => (fs f).map (resizeDims scale))

/-- Largest `m ≤ k` with `m * m ≤ n`, by downward scan: an executable
floor square root bounded by `k`.  `floorSqrtBelow_eq_min` relates it to
`Nat.sqrt`. -/
def floorSqrtBelow (n : Nat) : Nat → Nat
  | 0 => 0
  | k + 1 => if (k + 1) * (k + 1) ≤ n then k + 1 else floorSqrtBelow n k

/-- Model of `num_rows = int(math.sqrt(num_images))`: the integer (floor) square
root of the image count.  `gridRows_eq_sqrt` proves this definition equal
to `Nat.sqrt`. -/
def gridRows (n : Nat) : Nat := floorSqrtBelow n n

/-- Model of `num_cols = math.ceil(num_images / num_rows)`: the ceiling of the
exact division, computed as a natural-number ceiling division.
`gridCols_eq_ceil` below proves it equal to `⌈n / gridRows n⌉` taken
over the rationals, the form the division takes in the source. -/
def gridCols (n : Nat) : Nat := (n + gridRows n - 1) / gridRows n

/-- Python `max(...)` over a generator of naturals (the lists it is applied
to in the source are non-empty). -/
def listMax (l : List Nat) : Nat := l.foldr max 0

/-- Model of `os.path.splitext(name)[0]`: the file name with its extension removed.
The extension starts at the last dot, except that a dot with only dots in
front of it (a leading-dot name such as `.png`) starts no extension. -/
def splitextStem (s : String) : String :=
  let cs := s.data
  let lead := (cs.takeWhile (fun c => c = '.')).length
  match ((List.range cs.length).filter (fun i => cs.getD i ' ' = '.')).getLast? with
  | some i => if lead < i then ⟨cs.take i⟩ else s
  | none => s

/-- One `collage.paste` plus the `draw.text` label drawn with it: the
pasted image's dimensions, the paste position, and the label's text and
position. -/
structure PasteRecord where
  image : Nat × Nat
  pasteX : Nat
  pasteY : Nat
  label : String
  labelX : Nat
  labelY : Nat
deriving DecidableEq, Repr

/-- The paste loop of `make_vic_collage`: iterates over
`zip(image_files, scaled_images)` with cursor `(x_offset, y_offset)`
starting at `(0, 0)`.  For each pair whose *file name* still exists on
disk, pastes the paired scaled image at the cursor, draws the name's stem
at the same position, advances `x_offset` by the pasted width and wraps
(reset `x_offset`, advance `y_offset` by the pasted height) once
`x_offset >= collage_width`. -/
def pasteLoop (fs : String → Option Img) (W : Nat) :
    Nat → Nat → List (String × (Nat × Nat)) → List PasteRecord
  | _, _, [] => []
  | x, y, (f, wh) :: rest =>
    if (fs f).isSome then
      let r : PasteRecord := ⟨wh, x, y, splitextStem f, x, y⟩
      if W ≤ x + wh.1 then r :: pasteLoop fs W 0 (y + wh.2) rest
      else r :: pasteLoop fs W (x + wh.1) y rest
    else pasteLoop fs W x y rest

/-- The composed collage written to `output/vics_collage_{epoch}.jpg`: its
canvas dimensions, background colour, and the sequence of pastes. -/
structure CollageOutput where
  width : Nat
  height : Nat
  background : Nat × Nat × Nat
  pastes : List PasteRecord
deriving DecidableEq, Repr

/-- Model of `make_vic_collage(image_files, collage_scale)`.  Returns `none` when
the function returns early without creating the output directory or
writing any file (empty input list, or no listed file exists on disk);
otherwise `some` of the collage it writes. -/
def make_vic_collage (fs : String → Option Img) (files : List String) (scale : ℚ) :
    Option CollageOutput :=
  if files.isEmpty then none
  else
    let scaled := scaledImages fs scale files
    if scaled.isEmpty then none
    else
      let n := scaled.length
      let rows := gridRows n
      let cols := gridCols n
      let W := listMax (scaled.map Prod.fst) * cols
      let H := listMax (scaled.map Prod.snd) * rows
      some ⟨W, H, (0, 0, 0), pasteLoop fs W 0 0 (files.zip scaled)⟩

/-! ## Orchestrator (`main_async`, source lines 225–260) -/

/-- Model of the f-string formatting a token id into a file name. -/
def idFileName (i : Nat) : String := toString i ++ ".png"

/-- The accumulated `all_image_files` list and the collage produced (or
`none` when composition wrote nothing). -/
structure RunResult where
  allImageFiles : List String
  collage : Option CollageOutput
deriving Repr

/-- The wallet loop of `main_async`: for each wallet in argument order,
`get_the_vics`, then extend `all_image_files` with `{id}.png` for every
resolved id.  Any exception escaping a wallet terminates the run. -/
def processWallets (outcome : Nat → DownloadOutcome) :
    List (List Nat) → Except RunError (List String)
  | [] => .ok []
  | w :: ws =>
    match get_the_vics w outcome with
    | .error e => .error e
    | .ok (_, token_ids) =>
      match processWallets outcome ws with
      | .error e => .error e
      | .ok rest => .ok (token_ids.map idFileName ++ rest)

/-- Model of `main_async`: validates `--collage_scale` against the inclusive range
`[0.010, 1.0]` (a violation is an `argparse` usage error raised before the
wallet loop), then processes every wallet and finally hands the
accumulated file list to `make_vic_collage` when it is non-empty. -/
def main_async (fs : String → Option Img) (wallets : List (List Nat))
    (outcome : Nat → DownloadOutcome) (scale : ℚ) : Except RunError RunResult :=
  if mkRat 1 100 ≤ scale ∧ scale ≤ 1 then
    match processWallets outcome wallets with
    | .error e => .error e
    | .ok files =>
      .ok ⟨files, if files.isEmpty then none else make_vic_collage fs files scale⟩
  else .error .usageError

/-! ## Configuration loader (`load_configuration`, source lines 38–55) -/

/-- A parsed JSON value, as returned by `json.load`. -/
inductive Json where
  | null
  | bool (b : Bool)
  | num (n : Int)
  | str (s : String)
  | arr (elems : List Json)
  | obj (fields : List (String × Json))
deriving Repr

/-- Result of opening and parsing the configuration file: the file is
missing (`FileNotFoundError`), unparseable (`json.JSONDecodeError`), or
parses to a JSON value. -/
inductive ConfigReadOutcome where
  | fileNotFound
  | jsonDecodeError
  | parsed (value : Json)

/-- Model of `load_configuration(file_path)`: the value returned together with the
diagnostics printed.  Both failure modes are caught, print one diagnostic
and fall through to `return {}`; a successful parse is returned as-is,
with no schema validation. -/
def load_configuration (file_path : String) :
    ConfigReadOutcome → Json × List String
  | .fileNotFound => (.obj [], ["Configuration file not found: " ++ file_path])
  | .jsonDecodeError => (.obj [], ["Error decoding JSON from the file: " ++ file_path])
  | .parsed v => (v, [])

/-! ## Working-directory lifecycle (`__main__` lines 262–265, and line 139) -/

/-- A directory state: `none` when the directory does not exist, otherwise
`some` of the file names it holds. -/
abbrev DirState : Type := Option (List String)

/-- Model of `os.makedirs(dir, exist_ok=True)`: creates the directory empty when it
is absent and leaves an existing directory, contents included, untouched. -/
def makedirsExistOk (d : DirState) : DirState :=
  match d with
  | none => some []
  | some files => some files

/-- Model of `shutil.rmtree(dir, ignore_errors=True)` followed by `os.mkdir(dir)`:
whatever the previous state, the directory exists and is empty. -/
def rmtreeThenMkdir (_d : DirState) : DirState := some []

/-- State of `vics/` at the moment the first download task runs: the only
preparation performed during the run is the `os.makedirs(..., exist_ok=True)`
in `get_the_vics`. -/
def vicsDirAtDownloadStart (d0 : DirState) : DirState := makedirsExistOk d0

/-- State of `vics/` at process exit: downloads append their files during
the run, then the `__main__` epilogue deletes and recreates the directory. -/
def vicsDirAtExit (d0 : DirState) (downloaded : List String) : DirState :=
  rmtreeThenMkdir ((vicsDirAtDownloadStart d0).map (fun files => files ++ downloaded))

/-! ## Specification model of the paste placement

The specification describes step 4 of the composition algorithm as:
paste the images left-to-right, top-to-bottom in input list order at a
cursor starting at `(0, 0)`, advancing `x` by the pasted image's width and,
when `x` reaches or exceeds the canvas width, resetting `x` to `0` and
advancing `y` by the pasted image's height, drawing each label at the
image's top-left paste position.  `pasteLoop` is compared against this
definition under the assumption that every listed file exists. -/
def specPlacePastes (W : Nat) :
    Nat → Nat → List (String × (Nat × Nat)) → List PasteRecord
  | _, _, [] => []
  | x, y, (f, wh) :: rest =>
    let r : PasteRecord := ⟨wh, x, y, splitextStem f, x, y⟩
    if W ≤ x + wh.1 then r :: specPlacePastes W 0 (y + wh.2) rest
    else r :: specPlacePastes W (x + wh.1) y rest

/-! ## Concrete fixtures used by witnesses and counterexamples -/

/-- A working directory holding no file at all. -/
def fsEmpty : String → Option Img := fun _ => none

/-- A download oracle under which every HTTP GET returns 200. -/
def allOk : Nat → DownloadOutcome := fun _ => .ok

/-- A working directory holding only `2.png`, a 100×100 image. -/
def fsOnly2 : String → Option Img :=
  fun f => if f = "2.png" then some ⟨100, 100⟩ else none

/-- A working directory holding 100×100 images `1.png`, `2.png`, `3.png`. -/
def fsThree : String → Option Img :=
  fun f => if f = "1.png" ∨ f = "2.png" ∨ f = "3.png" then some ⟨100, 100⟩ else none

/-- The file list `["1.png", "2.png", "3.png"]`. -/
def filesThree : List String := ["1.png", "2.png", "3.png"]

/-- The collage produced from `filesThree` over `fsThree` at scale `1/10`:
a `1 × 3` grid of 10×10 images on a 30×10 black canvas. -/
def outThree : CollageOutput :=
  ⟨30, 10, (0, 0, 0),
    [⟨(10, 10), 0, 0, "1", 0, 0⟩, ⟨(10, 10), 10, 0, "2", 10, 0⟩,
     ⟨(10, 10), 20, 0, "3", 20, 0⟩]⟩

/-! ## Helper lemmas -/

theorem floorSqrtBelow_eq_min (n k : Nat) :
    floorSqrtBelow n k = min k (Nat.sqrt n) := by
  induction k with
  | zero => simp [floorSqrtBelow]
  | succ k ih =>
    rw [floorSqrtBelow]
    by_cases h : (k + 1) * (k + 1) ≤ n
    · rw [if_pos h]
      have hk : k + 1 ≤ Nat.sqrt n := Nat.le_sqrt.mpr h
      omega
    · rw [if_neg h, ih]
      have hs : ¬ (k + 1 ≤ Nat.sqrt n) := fun hc => h (Nat.le_sqrt.mp hc)
      omega

/-- The executable `gridRows` is the floor square root of the image count,
matching `int(math.sqrt(num_images))`. -/
theorem gridRows_eq_sqrt (n : Nat) : gridRows n = Nat.sqrt n := by
  rw [gridRows, floorSqrtBelow_eq_min]
  exact min_eq_right (Nat.sqrt_le_self n)

/-- The executable `gridCols` is `math.ceil(num_images / num_rows)`:
the ceiling, over the rationals, of the exact division. -/
theorem gridCols_eq_ceil (n : Nat) (h : 0 < gridRows n) :
    gridCols n = (⌈(n : ℚ) / (gridRows n : ℚ)⌉).toNat := by
  rw [gridCols]
  have hr : (0 : ℚ) < (gridRows n : ℚ) := by exact_mod_cast h
  have hr1 : (1 : ℚ) ≤ (gridRows n : ℚ) := by exact_mod_cast h
  have hceil : ⌈(n : ℚ) / (gridRows n : ℚ)⌉ = (((n + gridRows n - 1) / gridRows n : ℕ) : ℤ) := by
    rw [Int.ceil_eq_iff, Int.cast_natCast]
    constructor
    · rw [lt_div_iff₀ hr]
      have h1 : ((n + gridRows n - 1) / gridRows n) * gridRows n ≤ n + gridRows n - 1 :=
        Nat.div_mul_le_self (n + gridRows n - 1) (gridRows n)
      have h2 : (1 : ℕ) ≤ n + gridRows n := by omega
      have h1q : (((n + gridRows n - 1) / gridRows n : ℕ) : ℚ) * (gridRows n : ℚ) ≤
          (n : ℚ) + (gridRows n : ℚ) - 1 := by
        have h1c : (((n + gridRows n - 1) / gridRows n * gridRows n : ℕ) : ℚ) ≤
            ((n + gridRows n - 1 : ℕ) : ℚ) := by exact_mod_cast h1
        push_cast [Nat.cast_sub h2] at h1c
        linarith
      have hexp : ((((n + gridRows n - 1) / gridRows n : ℕ) : ℚ) - 1) * (gridRows n : ℚ) =
          (((n + gridRows n - 1) / gridRows n : ℕ) : ℚ) * (gridRows n : ℚ) - (gridRows n : ℚ) := by
        ring
      rw [hexp]
      linarith
    · rw [div_le_iff₀ hr]
      have hdm := Nat.div_add_mod (n + gridRows n - 1) (gridRows n)
      have hmod := Nat.mod_lt (n + gridRows n - 1) h
      have h3 : n ≤ gridRows n * ((n + gridRows n - 1) / gridRows n) := by omega
      have h3q : (n : ℚ) ≤ (gridRows n : ℚ) * (((n + gridRows n - 1) / gridRows n : ℕ) : ℚ) := by
        exact_mod_cast h3
      rw [mul_comm]
      exact h3q
  rw [hceil, Int.toNat_natCast]

/-- For at least one image the grid covers all images:
`rows * cols ≥ n`. -/
theorem rows_mul_cols_ge (n : Nat) (h : 1 ≤ n) :
    n ≤ gridRows n * gridCols n := by
  have hrpos : 0 < gridRows n := by
    rw [gridRows_eq_sqrt]
    exact Nat.sqrt_pos.mpr h
  rw [gridCols]
  have hdm := Nat.div_add_mod (n + gridRows n - 1) (gridRows n)
  have hmod := Nat.mod_lt (n + gridRows n - 1) hrpos
  omega

theorem get_the_vics_of_ne_nil (w : List Nat) (outcome : Nat → DownloadOutcome)
    (h : w ≠ []) :
    get_the_vics w outcome = .ok (batchCounter (pySort w) outcome, pySort w) := by
  have hlen : (pySort w).length ≠ 0 := by
    rw [pySort, List.length_insertionSort]
    exact fun hc => h (List.length_eq_zero.mp hc)
  rw [get_the_vics, print_progress_bar, if_neg hlen]

theorem get_the_vics_error_eq (w : List Nat) (outcome : Nat → DownloadOutcome)
    (e : RunError) (h : get_the_vics w outcome = .error e) :
    e = .zeroDivisionError := by
  by_cases hw : w = []
  · subst hw
    cases h
    rfl
  · rw [get_the_vics_of_ne_nil w outcome hw] at h
    cases h

theorem processWallets_of_mem_nil (outcome : Nat → DownloadOutcome)
    (wallets : List (List Nat)) (h : [] ∈ wallets) :
    processWallets outcome wallets = .error .zeroDivisionError := by
  induction wallets with
  | nil => cases h
  | cons w ws ih =>
    by_cases hw : w = []
    · subst hw
      rfl
    · have hmem : [] ∈ ws := by
        rcases List.mem_cons.mp h with hh | hh
        · exact absurd hh.symm hw
        · exact hh
      rw [processWallets, get_the_vics_of_ne_nil w outcome hw, ih hmem]

theorem processWallets_ne_usage (outcome : Nat → DownloadOutcome)
    (wallets : List (List Nat)) :
    processWallets outcome wallets ≠ .error .usageError := by
  induction wallets with
  | nil => intro h; cases h
  | cons w ws ih =>
    intro h
    rw [processWallets] at h
    cases hg : get_the_vics w outcome with
    | error e =>
      rw [hg] at h
      have := get_the_vics_error_eq w outcome e hg
      subst this
      cases h
    | ok p =>
      rw [hg] at h
      cases hp : processWallets outcome ws with
      | error e =>
        rw [hp] at h
        cases h
        exact ih hp
      | ok rest =>
        rw [hp] at h
        cases h

theorem processWallets_ok_files (outcome : Nat → DownloadOutcome)
    (wallets : List (List Nat)) (files : List String)
    (h : processWallets outcome wallets = .ok files) :
    files = (wallets.map (fun w => (pySort w).map idFileName)).flatten := by
  induction wallets generalizing files with
  | nil => cases h; rfl
  | cons w ws ih =>
    rw [processWallets] at h
    cases hg : get_the_vics w outcome with
    | error e => rw [hg] at h; cases h
    | ok p =>
      rw [hg] at h
      cases hp : processWallets outcome ws with
      | error e => rw [hp] at h; cases h
      | ok rest =>
        rw [hp] at h
        cases h
        have hw : p.2 = pySort w := by
          by_cases hnil : w = []
          · subst hnil; cases hg
          · rw [get_the_vics_of_ne_nil w outcome hnil] at hg
            cases hg; rfl
        rw [List.map_cons, List.flatten_cons, hw, ih rest hp]

/-! ## C1 -/

/-- Claim C1, counterexample: a batch with the single token id `7` whose
download raises a transport exception ends with the progress counter at
`0`, not at `total = 1`, because the callback line inside the `try` block
is never reached. -/
theorem callback_claim_counterexample :
    batchCounter [7] (fun _ => DownloadOutcome.transportExc) ≠ 1 := by decide

/-- Claim C1, amended: each download task invokes the completion callback
exactly once when its HTTP request completes with a 200 or a non-200
status, but zero times when a transport exception is raised, so the
progress counter ends at the number of tasks that did not raise an
exception (equal to `total` exactly when no task raised). -/
theorem callback_count_eq (o : DownloadOutcome) :
    (download_vic o).2 = if o = DownloadOutcome.transportExc then 0 else 1 := by
  cases o <;> rfl

theorem callback_once_unless_exception (tokenIds : List Nat)
    (outcome : Nat → DownloadOutcome) :
    batchCounter tokenIds outcome =
      (tokenIds.filter
        (fun t => outcome t ≠ DownloadOutcome.transportExc)).length := by
  induction tokenIds with
  | nil => rfl
  | cons t ts ih =>
    rw [batchCounter, List.map_cons, List.sum_cons, List.filter_cons]
    rw [batchCounter] at ih
    rw [ih, callback_count_eq]
    by_cases h : outcome t = DownloadOutcome.transportExc <;> (simp [h]; try omega)

/-! ## C2 -/

/-- Claim C2 (a code bug): with `vics/` holding only `2.png` (100×100) and
input list `["1.png", "2.png"]` at scale `1/10`, `2.png` is opened and
scaled, yet the paste loop zips the full name list against the shorter
scaled-image list, pairing `2.png`'s pixels with the missing name
`1.png`; the pair fails the existence re-check and nothing at all is
pasted, so the existing file's image is dropped instead of being pasted
with its own label. -/
theorem collage_drops_existing_file_on_missing_sibling :
    scaledImages fsOnly2 (mkRat 1 10) ["1.png", "2.png"] = [(10, 10)] ∧
    (make_vic_collage fsOnly2 ["1.png", "2.png"] (mkRat 1 10)).map
      CollageOutput.pastes = some [] :=
  ⟨rfl, rfl⟩

/-! ## C6 -/

/-- Claim C6: called with an empty file list, or with a list none of whose
files exists in the working directory, the collage composer returns early
(after a printed message) and writes nothing: no output directory, no
collage file. -/
theorem collage_no_write_on_empty_input (disk : String → Option Img)
    (files : List String) (scale : ℚ)
    (h : files = [] ∨ ∀ f ∈ files, disk f = none) :
    make_vic_collage disk files scale = none := by
  rcases h with h | h
  · subst h; rfl
  · have hscaled : scaledImages disk scale files = [] := by
      rw [scaledImages, List.filterMap_eq_nil_iff]
      intro f hf
      rw [h f hf, Option.map_none']
    rw [make_vic_collage]
    by_cases hf : files.isEmpty
    · rw [if_pos hf]
    · rw [if_neg hf]
      simp only [hscaled, List.isEmpty_nil, if_true]

/-- Witness for C6 at a concrete input: one listed file, absent from the
working directory. -/
theorem collage_no_write_witness :
    make_vic_collage fsEmpty ["9.png"] (mkRat 1 10) = none :=
  collage_no_write_on_empty_input fsEmpty ["9.png"] (mkRat 1 10)
    (Or.inr (by decide))

/-! ## C8 -/

/-- Claim C8, counterexample: a run that starts while `vics/` still holds
a leftover file does not begin its downloads in a freshly created empty
directory — the only preparation during the run is
`os.makedirs('vics', exist_ok=True)`, which preserves existing contents. -/
theorem vics_not_fresh_counterexample :
    vicsDirAtDownloadStart (some ["stale.png"]) ≠ some [] := by decide

/-- Claim C8, amended: the delete-then-recreate reset of `vics/` happens
once per run, after the main routine returns and before process exit;
before the downloads the directory is only created if missing, so
pre-existing contents survive into the download phase and the directory
is freshly empty at download start only when it was absent. -/
theorem vics_reset_only_at_exit (d0 : DirState) (downloaded files : List String) :
    vicsDirAtExit d0 downloaded = some [] ∧
    vicsDirAtDownloadStart none = some [] ∧
    vicsDirAtDownloadStart (some files) = some files :=
  ⟨rfl, rfl, rfl⟩

/-! ## C9 -/

/-- Claim C9: a missing configuration file and malformed JSON each yield
the empty mapping together with one printed diagnostic instead of an
exception, while a readable well-formed file yields the parsed value
unchanged — any parsed value is passed through with no schema
validation. -/
theorem load_configuration_error_handling (file_path : String) :
    load_configuration file_path .fileNotFound =
      (Json.obj [], ["Configuration file not found: " ++ file_path]) ∧
    load_configuration file_path .jsonDecodeError =
      (Json.obj [], ["Error decoding JSON from the file: " ++ file_path]) ∧
    ∀ v, load_configuration file_path (.parsed v) = (v, []) :=
  ⟨rfl, rfl, fun _ => rfl⟩

/-! ## Inversion of `make_vic_collage` and further helpers -/

theorem make_vic_collage_some_inv (disk : String → Option Img) (files : List String)
    (scale : ℚ) (out : CollageOutput)
    (h : make_vic_collage disk files scale = some out) :
    scaledImages disk scale files ≠ [] ∧
    out = ⟨listMax ((scaledImages disk scale files).map Prod.fst) *
             gridCols (scaledImages disk scale files).length,
           listMax ((scaledImages disk scale files).map Prod.snd) *
             gridRows (scaledImages disk scale files).length,
           (0, 0, 0),
           pasteLoop disk
             (listMax ((scaledImages disk scale files).map Prod.fst) *
               gridCols (scaledImages disk scale files).length) 0 0
             (files.zip (scaledImages disk scale files))⟩ := by
  rw [make_vic_collage] at h
  by_cases hf : files.isEmpty
  · rw [if_pos hf] at h
    cases h
  · rw [if_neg hf] at h
    by_cases hs : (scaledImages disk scale files).isEmpty
    · simp only [hs, if_true] at h
      cases h
    · have hs' : (scaledImages disk scale files).isEmpty = false :=
        Bool.eq_false_iff.mpr hs
      simp only [hs', Bool.false_eq_true, if_false] at h
      refine ⟨?_, ?_⟩
      · intro hnil
        rw [hnil] at hs'
        cases hs'
      · cases h
        rfl

theorem scaledImages_length_of_all_exist (disk : String → Option Img) (scale : ℚ)
    (files : List String) (h : ∀ f ∈ files, (disk f).isSome) :
    (scaledImages disk scale files).length = files.length := by
  induction files with
  | nil => rfl
  | cons f fs ih =>
    have hf := h f (List.mem_cons_self f fs)
    obtain ⟨img, himg⟩ := Option.isSome_iff_exists.mp hf
    have hmap : (disk f).map (resizeDims scale) = some (resizeDims scale img) := by
      rw [himg]; rfl
    simp only [scaledImages, List.filterMap_cons, hmap, List.length_cons]
    have hrest := ih (fun g hg => h g (List.mem_cons_of_mem f hg))
    rw [scaledImages] at hrest
    rw [hrest]

theorem resizeDims_eq_floor (scale : ℚ) (hs : 0 ≤ scale) (img : Img) :
    resizeDims scale img =
      ((⌊(img.width : ℚ) * scale⌋).toNat, (⌊(img.height : ℚ) * scale⌋).toNat) := by
  rw [resizeDims, pyInt, pyInt,
    if_pos (mul_nonneg (Nat.cast_nonneg img.width) hs),
    if_pos (mul_nonneg (Nat.cast_nonneg img.height) hs)]

theorem scaledImages_eq_floor (disk : String → Option Img) (scale : ℚ)
    (files : List String) (hs : 0 ≤ scale) :
    scaledImages disk scale files =
      files.filterMap (fun f => (disk f).map (fun img =>
        ((⌊(img.width : ℚ) * scale⌋).toNat, (⌊(img.height : ℚ) * scale⌋).toNat))) := by
  rw [scaledImages]
  have hfun : (fun f => (disk f).map (resizeDims scale)) =
      (fun f => (disk f).map (fun img =>
        ((⌊(img.width : ℚ) * scale⌋).toNat, (⌊(img.height : ℚ) * scale⌋).toNat))) := by
    funext f
    cases hd : disk f with
    | none => rfl
    | some img => simp [resizeDims_eq_floor scale hs]
  rw [hfun]

theorem pasteLoop_eq_spec (disk : String → Option Img) (W : Nat)
    (pairs : List (String × (Nat × Nat))) :
    ∀ x y, (∀ p ∈ pairs, (disk p.1).isSome) →
      pasteLoop disk W x y pairs = specPlacePastes W x y pairs := by
  induction pairs with
  | nil => intro x y _; rfl
  | cons p ps ih =>
    intro x y hall
    obtain ⟨f, wh⟩ := p
    have hf : (disk f).isSome := hall (f, wh) (List.mem_cons_self _ _)
    have hrest : ∀ q ∈ ps, (disk q.1).isSome :=
      fun q hq => hall q (List.mem_cons_of_mem _ hq)
    simp only [pasteLoop, specPlacePastes, hf, if_true]
    by_cases hw : W ≤ x + wh.1
    · rw [if_pos hw, if_pos hw, ih 0 (y + wh.2) hrest]
    · rw [if_neg hw, if_neg hw, ih (x + wh.1) y hrest]

theorem pasteLoop_label_at_paste (disk : String → Option Img) (W : Nat)
    (pairs : List (String × (Nat × Nat))) :
    ∀ x y, ∀ r ∈ pasteLoop disk W x y pairs,
      r.labelX = r.pasteX ∧ r.labelY = r.pasteY := by
  induction pairs with
  | nil => intro x y r hr; cases hr
  | cons p ps ih =>
    intro x y r hr
    obtain ⟨f, wh⟩ := p
    simp only [pasteLoop] at hr
    by_cases hf : (disk f).isSome
    · simp only [hf, if_true] at hr
      by_cases hw : W ≤ x + wh.1
      · rw [if_pos hw] at hr
        rcases List.mem_cons.mp hr with hr | hr
        · subst hr; exact ⟨rfl, rfl⟩
        · exact ih 0 (y + wh.2) r hr
      · rw [if_neg hw] at hr
        rcases List.mem_cons.mp hr with hr | hr
        · subst hr; exact ⟨rfl, rfl⟩
        · exact ih (x + wh.1) y r hr
    · simp only [hf, Bool.false_eq_true, if_false] at hr
      exact ih x y r hr

theorem specPlacePastes_labels (W : Nat) (pairs : List (String × (Nat × Nat))) :
    ∀ x y, (specPlacePastes W x y pairs).map PasteRecord.label =
      pairs.map (fun p => splitextStem p.1) := by
  induction pairs with
  | nil => intro x y; rfl
  | cons p ps ih =>
    intro x y
    obtain ⟨f, wh⟩ := p
    simp only [specPlacePastes]
    by_cases hw : W ≤ x + wh.1
    · rw [if_pos hw, List.map_cons, List.map_cons, ih 0 (y + wh.2)]
    · rw [if_neg hw, List.map_cons, List.map_cons, ih (x + wh.1) y]

/-! ## C3 -/

/-- Claim C3: on every run that completes, the file list handed to the
collage composer is exactly, in order, `{id}.png` for every token id
resolved across the requested wallets — wallets in argument order, each
wallet's ids sorted ascending — independent of the download outcomes (the
outcome oracle is universally quantified and absent from the right-hand
side), with no other name substituted or added. -/
theorem collage_receives_all_resolved_ids (disk : String → Option Img)
    (wallets : List (List Nat)) (outcome : Nat → DownloadOutcome) (scale : ℚ)
    (res : RunResult) (h : main_async disk wallets outcome scale = .ok res) :
    res.allImageFiles =
      (wallets.map (fun w => (pySort w).map idFileName)).flatten ∧
    ∀ w ∈ wallets, List.Sorted (· ≤ ·) (pySort w) := by
  constructor
  · rw [main_async] at h
    by_cases hc : mkRat 1 100 ≤ scale ∧ scale ≤ 1
    · rw [if_pos hc] at h
      cases hpw : processWallets outcome wallets with
      | error e => rw [hpw] at h; cases h
      | ok files =>
        rw [hpw] at h
        cases h
        exact processWallets_ok_files outcome wallets files hpw
    · rw [if_neg hc] at h
      cases h
  · intro w _
    rw [pySort]
    exact List.sorted_insertionSort (· ≤ ·) w

/-- Witness for C3: two wallets, `[3, 1, 2]` and `[5]`, every download
succeeding, scale `1/10`. -/
theorem collage_receives_all_resolved_ids_witness :
    RunResult.allImageFiles ⟨["1.png", "2.png", "3.png", "5.png"], none⟩ =
      (([[3, 1, 2], [5]] : List (List Nat)).map
        (fun w => (pySort w).map idFileName)).flatten ∧
    ∀ w ∈ ([[3, 1, 2], [5]] : List (List Nat)), List.Sorted (· ≤ ·) (pySort w) :=
  collage_receives_all_resolved_ids fsEmpty [[3, 1, 2], [5]] allOk (mkRat 1 10)
    ⟨["1.png", "2.png", "3.png", "5.png"], none⟩ rfl

/-! ## C4 -/

/-- Claim C4: whenever the composer writes a collage, the number `n` of
successfully scaled images is at least one, the grid satisfies
`rows = floor(sqrt n)`, `cols = ceil(n / rows)` (ceiling of the exact
rational division) and `rows * cols ≥ n`; every scaled size is the
floor (integer truncation) of `width * scale` and `height * scale`; and
the canvas measures `max scaled width * cols` by `max scaled height *
rows`, filled opaque black. -/
theorem collage_grid_shape (disk : String → Option Img) (files : List String)
    (scale : ℚ) (out : CollageOutput) (hs : 0 ≤ scale)
    (h : make_vic_collage disk files scale = some out) :
    1 ≤ (scaledImages disk scale files).length ∧
    (scaledImages disk scale files).length ≤
      Nat.sqrt (scaledImages disk scale files).length *
        gridCols (scaledImages disk scale files).length ∧
    gridCols (scaledImages disk scale files).length =
      (⌈((scaledImages disk scale files).length : ℚ) /
        (Nat.sqrt (scaledImages disk scale files).length : ℚ)⌉).toNat ∧
    out.width = listMax ((scaledImages disk scale files).map Prod.fst) *
      gridCols (scaledImages disk scale files).length ∧
    out.height = listMax ((scaledImages disk scale files).map Prod.snd) *
      Nat.sqrt (scaledImages disk scale files).length ∧
    out.background = (0, 0, 0) ∧
    scaledImages disk scale files = files.filterMap (fun f => (disk f).map (fun img =>
      ((⌊(img.width : ℚ) * scale⌋).toNat, (⌊(img.height : ℚ) * scale⌋).toNat))) := by
  obtain ⟨hne, hout⟩ := make_vic_collage_some_inv disk files scale out h
  have hn : 1 ≤ (scaledImages disk scale files).length :=
    List.length_pos.mpr hne
  have hrows : 1 ≤ gridRows (scaledImages disk scale files).length := by
    rw [gridRows_eq_sqrt]
    exact Nat.sqrt_pos.mpr hn
  refine ⟨hn, ?_, ?_, ?_, ?_, ?_, scaledImages_eq_floor disk scale files hs⟩
  · have := rows_mul_cols_ge (scaledImages disk scale files).length hn
    rw [gridRows_eq_sqrt] at this
    exact this
  · have := gridCols_eq_ceil (scaledImages disk scale files).length hrows
    rw [gridRows_eq_sqrt] at this
    exact this
  · rw [hout]
  · rw [hout, ← gridRows_eq_sqrt]
  · rw [hout]

/-- Witness for C4: three 100×100 images at scale `1/10` produce a
non-empty scaled list. -/
theorem collage_grid_shape_witness :
    1 ≤ (scaledImages fsThree (mkRat 1 10) filesThree).length :=
  (collage_grid_shape fsThree filesThree (mkRat 1 10) outThree (by decide) rfl).1

/-! ## C5 -/

/-- Claim C5: when every listed file exists in the working directory, the
written collage pastes the images strictly in input list order following
the specification's cursor rule — start at `(0, 0)`, advance `x` by the
pasted width, wrap (`x := 0`, `y += pasted height`) once `x` reaches the
canvas width — the label sequence is exactly the input names' stems in
input order, and every label is drawn at its image's top-left paste
position. -/
theorem collage_paste_order (disk : String → Option Img) (files : List String)
    (scale : ℚ) (out : CollageOutput)
    (hex : ∀ f ∈ files, (disk f).isSome)
    (h : make_vic_collage disk files scale = some out) :
    out.pastes = specPlacePastes out.width 0 0
      (files.zip (scaledImages disk scale files)) ∧
    out.pastes.map PasteRecord.label = files.map splitextStem ∧
    ∀ r ∈ out.pastes, r.labelX = r.pasteX ∧ r.labelY = r.pasteY := by
  obtain ⟨hne, hout⟩ := make_vic_collage_some_inv disk files scale out h
  subst hout
  have hzip : ∀ p ∈ files.zip (scaledImages disk scale files), (disk p.1).isSome := by
    intro p hp
    obtain ⟨f, wh⟩ := p
    exact hex f (List.of_mem_zip hp).1
  refine ⟨?_, ?_, ?_⟩
  · exact pasteLoop_eq_spec disk _ _ 0 0 hzip
  · show (pasteLoop disk _ 0 0 _).map PasteRecord.label = _
    rw [pasteLoop_eq_spec disk _ _ 0 0 hzip, specPlacePastes_labels]
    have hlen : files.length ≤ (scaledImages disk scale files).length :=
      le_of_eq (scaledImages_length_of_all_exist disk scale files hex).symm
    calc (files.zip (scaledImages disk scale files)).map (fun p => splitextStem p.1)
        = ((files.zip (scaledImages disk scale files)).map Prod.fst).map splitextStem := by
          rw [List.map_map]; rfl
      _ = files.map splitextStem := by rw [List.map_fst_zip files _ hlen]
  · intro r hr
    exact pasteLoop_label_at_paste disk _ _ 0 0 r hr

/-- Witness for C5: the three-image fixture, all files present. -/
theorem collage_paste_order_witness :
    outThree.pastes.map PasteRecord.label = filesThree.map splitextStem :=
  (collage_paste_order fsThree filesThree (mkRat 1 10) outThree (by decide) rfl).2.1

/-! ## C7 -/

/-- Claim C7: the run exits with a usage error exactly when the scale lies
outside the inclusive interval `[0.010, 1.0]`; the check fires before any
ownership resolution or download — the rejection is independent of the
wallets and of the download oracle, both universally quantified — and the
default scale `0.10` satisfies the bounds. -/
theorem scale_validation_iff (disk : String → Option Img) (wallets : List (List Nat))
    (outcome : Nat → DownloadOutcome) (scale : ℚ) :
    (main_async disk wallets outcome scale = .error .usageError ↔
      ¬ (mkRat 1 100 ≤ scale ∧ scale ≤ 1)) ∧
    (mkRat 1 100 ≤ mkRat 1 10 ∧ (mkRat 1 10 : ℚ) ≤ 1) := by
  refine ⟨⟨?_, ?_⟩, by decide, by decide⟩
  · intro h hc
    rw [main_async, if_pos hc] at h
    cases hpw : processWallets outcome wallets with
    | error e =>
      rw [hpw] at h
      cases h
      exact processWallets_ne_usage outcome wallets hpw
    | ok files =>
      rw [hpw] at h
      cases h
  · intro hc
    rw [main_async, if_neg hc]

/-- Witness for C7: scale `1/200 < 0.010` is rejected with a usage error
even for a wallet list whose processing would otherwise raise a
`ZeroDivisionError`, showing the check precedes resolution. -/
theorem scale_validation_witness :
    main_async fsEmpty [[]] allOk (mkRat 1 200) = .error .usageError :=
  (scale_validation_iff fsEmpty [[]] allOk (mkRat 1 200)).1.mpr (by decide)

/-! ## C10 -/

/-- Claim C10: `print_progress_bar` with `total = 0` raises
`ZeroDivisionError`; `get_the_vics` calls it with `total` equal to the
number of resolved tokens before any download, so a wallet owning zero
tokens terminates the whole run with the unhandled exception instead of
completing with an empty batch. -/
theorem zero_token_wallet_crashes (disk : String → Option Img)
    (wallets : List (List Nat)) (outcome : Nat → DownloadOutcome) (scale : ℚ)
    (hscale : mkRat 1 100 ≤ scale ∧ scale ≤ 1) (hmem : [] ∈ wallets) :
    print_progress_bar 0 0 50 = .error .zeroDivisionError ∧
    get_the_vics [] outcome = .error .zeroDivisionError ∧
    main_async disk wallets outcome scale = .error .zeroDivisionError := by
  refine ⟨rfl, rfl, ?_⟩
  rw [main_async, if_pos hscale, processWallets_of_mem_nil outcome wallets hmem]

/-- Witness for C10: one wallet owning zero tokens, at the default
scale. -/
theorem zero_token_wallet_crashes_witness :
    print_progress_bar 0 0 50 = .error .zeroDivisionError ∧
    get_the_vics [] allOk = .error .zeroDivisionError ∧
    main_async fsEmpty [[]] allOk (mkRat 1 10) = .error .zeroDivisionError :=
  zero_token_wallet_crashes fsEmpty [[]] allOk (mkRat 1 10) (by decide) (by decide)

end VicCollage
